import Mathlib

/-!
Shallow embedding of the multiplayer/solo trivia game engine of the
flashcard web application (src/routes/games.py and src/routes/cards.py),
together with theorems settling the specification claims about it.

Strings are modelled over Lean characters with the ASCII fragment of the
Python character classes (word characters `[a-zA-Z0-9_]`, whitespace,
lowercasing); Python floats that only ever hold exact multiples of 0.5
are modelled as rationals; Python dicts that preserve insertion order are
modelled as association lists.
-/

namespace Trivia

/-- A flashcard, restricted to the fields the game engine reads
(`front`, `back` of `db.models.Card`). -/
structure CardM where
  front : String
  back : String
deriving DecidableEq, Repr

/-- The space character (written via its code point). -/
def spaceChar : Char := Char.ofNat 32

/-- Python regex word character `\w`, ASCII fragment: alphanumeric or underscore. -/
def isWordChar (c : Char) : Bool := c.isAlphanum || c = '_'

/-- Characters kept by `re.sub(r'[^\w\s-]', '', text)` in `normalize_text`:
word characters, whitespace, hyphen. -/
def keepChar (c : Char) : Bool := isWordChar c || c.isWhitespace || c = '-'

/-- Auxiliary for `collapseWs`: the flag records whether the previous
character was whitespace (already emitted as one space). -/
def collapseWsAux : Bool → List Char → List Char
  | _, [] => []
  | prevWs, c :: rest =>
    if c.isWhitespace then
      if prevWs then collapseWsAux true rest
      else spaceChar :: collapseWsAux true rest
    else c :: collapseWsAux false rest

/-- Replace every maximal run of whitespace by a single space:
`re.sub(r'\s+', ' ', text)`. -/
def collapseWs (l : List Char) : List Char := collapseWsAux false l

/-- Python `str.strip()` on a character list: drop whitespace at both ends. -/
def pyStripList (l : List Char) : List Char :=
  ((l.dropWhile Char.isWhitespace).reverse.dropWhile Char.isWhitespace).reverse

/-- Python `str.strip()`. -/
def pyStrip (s : String) : String := ⟨pyStripList s.data⟩

/-- The function `normalize_text` of `routes/games.py` (lines 62-67) and
`routes/cards.py` (lines 120-124), identical in both files: lowercase,
delete every character that is not a word character, whitespace or hyphen,
collapse whitespace runs to one space, strip. -/
def normalize_text (s : String) : String :=
  ⟨pyStripList (collapseWs ((s.data.map Char.toLower).filter keepChar))⟩

/-- Auxiliary for `pyWords`: accumulates the current word reversed. -/
def pyWordsAux : List Char → List Char → List String
  | acc, [] => if acc.isEmpty then [] else [⟨acc.reverse⟩]
  | acc, c :: rest =>
    if c.isWhitespace then
      if acc.isEmpty then pyWordsAux [] rest
      else ⟨acc.reverse⟩ :: pyWordsAux [] rest
    else pyWordsAux (c :: acc) rest

/-- Python `str.split()` with no separator: whitespace-separated words,
empty pieces dropped. -/
def pyWords (s : String) : List String := pyWordsAux [] s.data

/-- Python `set(s.split())` as a finite set of words. -/
def wordFinset (s : String) : Finset String := (pyWords s).toFinset

/-- The function `grade_answer` of `routes/games.py` (lines 69-89) and
`routes/cards.py` (lines 126-139), identical in both files.  The float
comparison `len(matching_words) >= len(correct_words) * 0.5` is exact
(both sides are exact multiples of 0.5) and is rendered as
`correct_words.card ≤ 2 * matching_words.card`. -/
def grade_answer (user_answer correct_answer : String) : String :=
  let normalized_user := normalize_text user_answer
  let normalized_correct := normalize_text correct_answer
  if normalized_user = normalized_correct then "correct"
  else
    let correct_words := wordFinset normalized_correct
    let user_words := wordFinset normalized_user
    if correct_words = ∅ then "wrong"
    else
      let matching_words := correct_words ∩ user_words
      if 0 < matching_words.card ∧ correct_words.card ≤ 2 * matching_words.card
      then "half"
      else "wrong"

/-- One player's tally: counts of correct/half/wrong answers and the derived
grade.  The Python float `grade` only ever holds exact multiples of 0.5, so it
is modelled as a rational. -/
structure PlayerScore where
  correct : ℕ
  half : ℕ
  wrong : ℕ
  grade : ℚ
deriving DecidableEq, Repr

/-- The zero-initialized `PlayerScore` of `routes/games.py` line 22 /
`routes/cards.py` line 152. -/
def initScore : PlayerScore := ⟨0, 0, 0, 0⟩

/-- The per-entry body shared by `update_game_score` (`routes/games.py`
lines 91-110) and `update_score_board` (`routes/cards.py` lines 141-163):
increment the counter matching `result` (anything else is left alone) and
recompute `grade = correct * 5.0 + half * 2.5` from scratch. -/
def applyResult (e : PlayerScore) (result : String) : PlayerScore :=
  let e1 :=
    if result = "correct" then { e with correct := e.correct + 1 }
    else if result = "half" then { e with half := e.half + 1 }
    else if result = "wrong" then { e with wrong := e.wrong + 1 }
    else e
  { e1 with grade := (e1.correct : ℚ) * 5 + (e1.half : ℚ) * (5 / 2) }

/-- Sequential application of a list of results to one entry. -/
def applyResults (e : PlayerScore) (l : List String) : PlayerScore :=
  l.foldl applyResult e

/-- A scoreboard: insertion-ordered association list, modelling the Python
dict `{username: entry}`. -/
abbrev Board := List (String × PlayerScore)

/-- Dict lookup. -/
def boardLookup : Board → String → Option PlayerScore
  | [], _ => none
  | (k, e) :: rest, u => if k = u then some e else boardLookup rest u

/-- The scoreboard-level behaviour of `update_game_score` /
`update_score_board`: create a zero entry for an unseen player (appended at
the end, as a Python dict does), then apply the result to that player's
entry. -/
def boardApply : Board → String → String → Board
  | [], u, r => [(u, applyResult initScore r)]
  | (k, e) :: rest, u, r =>
    if k = u then (k, applyResult e r) :: rest
    else (k, e) :: boardApply rest u r

section GradeLemmas

lemma grade_answer_correct_iff (u c : String) :
    grade_answer u c = "correct" ↔ normalize_text u = normalize_text c := by
  unfold grade_answer
  dsimp only
  split_ifs with h1 h2 h3
  · exact iff_of_true rfl h1
  · exact iff_of_false (by decide) h1
  · exact iff_of_false (by decide) h1
  · exact iff_of_false (by decide) h1

lemma grade_answer_empty_ref (u c : String)
    (h1 : normalize_text u ≠ normalize_text c)
    (h2 : wordFinset (normalize_text c) = ∅) :
    grade_answer u c = "wrong" := by
  unfold grade_answer
  dsimp only
  rw [if_neg h1, if_pos h2]

lemma grade_answer_overlap (u c : String)
    (h1 : normalize_text u ≠ normalize_text c)
    (h2 : wordFinset (normalize_text c) ≠ ∅) :
    grade_answer u c =
      if 0 < (wordFinset (normalize_text c) ∩ wordFinset (normalize_text u)).card ∧
          (wordFinset (normalize_text c)).card ≤
            2 * (wordFinset (normalize_text c) ∩ wordFinset (normalize_text u)).card
      then "half" else "wrong" := by
  unfold grade_answer
  dsimp only
  rw [if_neg h1, if_neg h2]

end GradeLemmas

/-- C1: the grader returns `correct` exactly when the normalized strings are
equal; otherwise, an empty reference word-set gives `wrong`, and with a
non-empty reference the result is `half` exactly when the intersection of
the word-sets is non-empty with size at least half the reference word-set's
size, and `wrong` otherwise; and the two quoted examples evaluate as the
claim states. -/
theorem grade_answer_characterization (u c : String) :
    (grade_answer u c = "correct" ↔ normalize_text u = normalize_text c) ∧
    (normalize_text u ≠ normalize_text c →
      (wordFinset (normalize_text c) = ∅ → grade_answer u c = "wrong") ∧
      (wordFinset (normalize_text c) ≠ ∅ →
        grade_answer u c =
          if (wordFinset (normalize_text c) ∩ wordFinset (normalize_text u)).Nonempty ∧
              (wordFinset (normalize_text c)).card ≤
                2 * (wordFinset (normalize_text c) ∩ wordFinset (normalize_text u)).card
          then "half" else "wrong")) ∧
    grade_answer "Nina and Pinta" "Nina, Pinta, and Santa Maria" = "half" ∧
    grade_answer "Jupiter" "Mars" = "wrong" := by
  refine ⟨grade_answer_correct_iff u c, fun h1 => ⟨grade_answer_empty_ref u c h1, fun h2 => ?_⟩,
    by decide, by decide⟩
  rw [grade_answer_overlap u c h1 h2]
  simp only [Finset.card_pos]

/-- Witness for C1 at concrete inputs, exercising both the empty-reference
branch and the overlap branch. -/
theorem grade_answer_characterization_witness :
    grade_answer "x" "!" = "wrong" ∧
    grade_answer "nina" "nina pinta" =
      (if (wordFinset (normalize_text "nina pinta") ∩
            wordFinset (normalize_text "nina")).Nonempty ∧
          (wordFinset (normalize_text "nina pinta")).card ≤
            2 * (wordFinset (normalize_text "nina pinta") ∩
              wordFinset (normalize_text "nina")).card
        then "half" else "wrong") :=
  ⟨((grade_answer_characterization "x" "!").2.1 (by decide)).1 (by decide),
    ((grade_answer_characterization "nina" "nina pinta").2.1 (by decide)).2 (by decide)⟩

/-- C10: whenever both inputs normalize to the empty string the grader
returns `correct` (the exact-equality check precedes the empty-reference
guard); the empty-reference-implies-wrong branch applies only when the
normalized strings differ. -/
theorem grade_answer_both_empty (u c : String) :
    (normalize_text u = "" → normalize_text c = "" → grade_answer u c = "correct") ∧
    (normalize_text u ≠ normalize_text c → wordFinset (normalize_text c) = ∅ →
      grade_answer u c = "wrong") :=
  ⟨fun hu hc => (grade_answer_correct_iff u c).mpr (hu.trans hc.symm),
    grade_answer_empty_ref u c⟩

/-- Witness for C10: a punctuation-only answer against a whitespace-only
reference is graded `correct`. -/
theorem grade_answer_both_empty_witness :
    grade_answer "!!!" "  " = "correct" :=
  (grade_answer_both_empty "!!!" "  ").1 (by decide) (by decide)

section ScoreLemmas

lemma applyResult_correct (e : PlayerScore) (r : String) :
    (applyResult e r).correct = e.correct + (if r = "correct" then 1 else 0) := by
  unfold applyResult
  dsimp only
  split_ifs <;> rfl

lemma applyResult_half (e : PlayerScore) (r : String) :
    (applyResult e r).half = e.half + (if r = "half" then 1 else 0) := by
  unfold applyResult
  dsimp only
  split_ifs <;> simp_all

lemma applyResult_wrong (e : PlayerScore) (r : String) :
    (applyResult e r).wrong = e.wrong + (if r = "wrong" then 1 else 0) := by
  unfold applyResult
  dsimp only
  split_ifs <;> simp_all

lemma applyResult_grade (e : PlayerScore) (r : String) :
    (applyResult e r).grade =
      ((applyResult e r).correct : ℚ) * 5 + ((applyResult e r).half : ℚ) * (5 / 2) := by
  unfold applyResult
  dsimp only

lemma applyResults_correct (l : List String) :
    ∀ e : PlayerScore, (applyResults e l).correct = e.correct + l.count "correct" := by
  induction l with
  | nil => intro e; simp [applyResults]
  | cons r t ih =>
    intro e
    show (applyResults (applyResult e r) t).correct = _
    rw [ih, applyResult_correct, List.count_cons]
    by_cases hr : r = "correct" <;> simp [hr] <;> omega

lemma applyResults_half (l : List String) :
    ∀ e : PlayerScore, (applyResults e l).half = e.half + l.count "half" := by
  induction l with
  | nil => intro e; simp [applyResults]
  | cons r t ih =>
    intro e
    show (applyResults (applyResult e r) t).half = _
    rw [ih, applyResult_half, List.count_cons]
    by_cases hr : r = "half" <;> simp [hr] <;> omega

lemma applyResults_wrong (l : List String) :
    ∀ e : PlayerScore, (applyResults e l).wrong = e.wrong + l.count "wrong" := by
  induction l with
  | nil => intro e; simp [applyResults]
  | cons r t ih =>
    intro e
    show (applyResults (applyResult e r) t).wrong = _
    rw [ih, applyResult_wrong, List.count_cons]
    by_cases hr : r = "wrong" <;> simp [hr] <;> omega

lemma applyResults_grade (l : List String) :
    ∀ e : PlayerScore,
      e.grade = (e.correct : ℚ) * 5 + (e.half : ℚ) * (5 / 2) →
      (applyResults e l).grade =
        ((applyResults e l).correct : ℚ) * 5 + ((applyResults e l).half : ℚ) * (5 / 2) := by
  induction l with
  | nil => intro e he; exact he
  | cons r t ih =>
    intro e _
    exact ih (applyResult e r) (applyResult_grade e r)

lemma playerScore_ext (a b : PlayerScore) (h1 : a.correct = b.correct)
    (h2 : a.half = b.half) (h3 : a.wrong = b.wrong) (h4 : a.grade = b.grade) :
    a = b := by
  cases a; cases b; simp_all

end ScoreLemmas

/-- C2: after any sequence of results is applied to a fresh scoreboard entry,
the grade is exactly `correct_count * 5.0 + half_count * 2.5`, the three
counters are exactly the occurrence counts, and the final entry depends only
on the multiset of results, not their order. -/
theorem scoreboard_sequence_spec (l : List String)
    (_hl : ∀ r ∈ l, r = "correct" ∨ r = "half" ∨ r = "wrong") :
    (applyResults initScore l).correct = l.count "correct" ∧
    (applyResults initScore l).half = l.count "half" ∧
    (applyResults initScore l).wrong = l.count "wrong" ∧
    (applyResults initScore l).grade =
      (l.count "correct" : ℚ) * 5 + (l.count "half" : ℚ) * (5 / 2) ∧
    ∀ l' : List String, l.Perm l' → applyResults initScore l' = applyResults initScore l := by
  have hc := applyResults_correct l initScore
  have hh := applyResults_half l initScore
  have hw := applyResults_wrong l initScore
  have hg := applyResults_grade l initScore (by simp [initScore])
  refine ⟨by simpa [initScore] using hc, by simpa [initScore] using hh,
    by simpa [initScore] using hw, ?_, ?_⟩
  · rw [hg, hc, hh]
    simp [initScore]
  · intro l' hp
    refine playerScore_ext _ _ ?_ ?_ ?_ ?_
    · rw [applyResults_correct l' initScore, applyResults_correct l initScore,
        hp.count_eq]
    · rw [applyResults_half l' initScore, applyResults_half l initScore, hp.count_eq]
    · rw [applyResults_wrong l' initScore, applyResults_wrong l initScore, hp.count_eq]
    · rw [applyResults_grade l' initScore (by simp [initScore]),
        applyResults_grade l initScore (by simp [initScore]),
        applyResults_correct l' initScore, applyResults_correct l initScore,
        applyResults_half l' initScore, applyResults_half l initScore, hp.count_eq,
        hp.count_eq]

/-- Witness for C2 on a concrete sequence of results. -/
theorem scoreboard_sequence_spec_witness :
    (applyResults initScore ["correct", "half", "wrong", "correct"]).grade =
      ((["correct", "half", "wrong", "correct"] : List String).count "correct" : ℚ) * 5 +
        ((["correct", "half", "wrong", "correct"] : List String).count "half" : ℚ) * (5 / 2) :=
  (scoreboard_sequence_spec ["correct", "half", "wrong", "correct"] (by decide)).2.2.2.1

/-! The `routes/games.py` multiplayer engine.  A `GameState` object holds the
status, the question counter, the current card, the scoreboard dict and the
per-round `answered_users` dict; the websocket endpoint (lines 245-326)
dispatches one inbound JSON message at a time against it.  The step function
below is that dispatch loop body; the random card drawn from the database is
an oracle argument `fetch`. -/

/-- Game status of `routes/games.py` (line 32). -/
inductive GStatus
  | LOBBY
  | ACTIVE
  | FINISHED
deriving DecidableEq, Repr

/-- The mutable per-game state of `routes/games.py` `GameState`, restricted
to the fields the websocket loop reads or writes. -/
structure GameG where
  status : GStatus
  max_questions : ℕ
  current_question_count : ℕ
  current_card : Option CardM
  score_board : Board
  answered_users : List String
  creator_username : String
deriving DecidableEq, Repr

/-- Inbound websocket messages of `routes/games.py`, after JSON decoding:
`data.get('payload', {}).get(...)` yields optional fields (`answer` defaults
to the empty string). -/
inductive InMsgG
  | chat (message : Option String)
  | answerSubmission (answer : String)
  | gameControl (command : Option String)
  | scoreRequest
  | unknownType
deriving DecidableEq, Repr

/-- Outbound payloads emitted by the `routes/games.py` websocket loop. -/
inductive PayloadG
  | chatMsg (sender text : String)
  | gameStatusUpdate (status : GStatus)
  | newCard (front back : String) (question_number max_questions : ℕ)
  | answerResult (sender answer result : String) (scores : Board)
  | scoreUpdate (scores : Board)
deriving DecidableEq, Repr

/-- Whether an outbound message is broadcast to every connection of the game
or sent only to the requesting socket. -/
inductive Dest
  | toAll
  | toSender
deriving DecidableEq, Repr

/-- Result of processing one inbound message in `routes/games.py`:
the new game state, the outbound messages in order, and whether an
exception escaped to the catch-all handler (the `game.current_card.back`
dereference of line 269 when `current_card` is `None`). -/
structure StepResultG where
  state : GameG
  out : List (Dest × PayloadG)
  crash : Bool
deriving DecidableEq, Repr

/-- Python truthiness of an optional string (`if message:`). -/
def truthyStr : Option String → Bool
  | none => false
  | some s => !(s = "")

/-- One iteration of the `routes/games.py` websocket receive loop
(lines 246-326), for a message from connected player `sender`.  `fetch` is
the card returned by `get_random_card_from_set` when the body asks for one. -/
def gamesStep (fetch : Option CardM) (g : GameG) (sender : String) (msg : InMsgG) :
    StepResultG :=
  match msg with
  | .chat m =>
    if truthyStr m then ⟨g, [(.toAll, .chatMsg sender (m.getD ""))], false⟩
    else ⟨g, [], false⟩
  | .answerSubmission a =>
    let answer := pyStrip a
    if g.status ≠ .ACTIVE ∨ sender ∈ g.answered_users then ⟨g, [], false⟩
    else
      match g.current_card with
      | none => ⟨g, [], true⟩
      | some card =>
        let result := grade_answer answer card.back
        let board := boardApply g.score_board sender result
        ⟨{ g with score_board := board, answered_users := g.answered_users ++ [sender] },
          [(.toAll, .answerResult sender answer result board)], false⟩
  | .gameControl cmd =>
    if sender ≠ g.creator_username then ⟨g, [], false⟩
    else
      let started := cmd = some "start_game" ∧ g.status = .LOBBY
      let g1 := if started then { g with status := .ACTIVE } else g
      let out1 : List (Dest × PayloadG) :=
        if started then [(.toAll, .gameStatusUpdate .ACTIVE)] else []
      let cmd1 := if started then some "request_next_card" else cmd
      if cmd1 = some "request_next_card" ∧ g1.status = .ACTIVE then
        if g1.max_questions ≤ g1.current_question_count then
          ⟨{ g1 with status := .FINISHED },
            out1 ++ [(.toAll, .gameStatusUpdate .FINISHED)], false⟩
        else
          let g2 := { g1 with
            answered_users := [],
            current_question_count := g1.current_question_count + 1 }
          match fetch with
          | some card =>
            ⟨{ g2 with current_card := some card },
              out1 ++ [(.toAll, .newCard card.front card.back
                g2.current_question_count g2.max_questions)], false⟩
          | none => ⟨g2, out1, false⟩
      else ⟨g1, out1, false⟩
  | .scoreRequest => ⟨g, [(.toSender, .scoreUpdate g.score_board)], false⟩
  | .unknownType => ⟨g, [], false⟩

/-- The question-count bound computed by `create_game` in `routes/games.py`
line 166: `max_questions = min(max_questions, len(game_set.cards), 50)`.
The requested count arrives as a form integer and may be non-positive. -/
def gamesCreateMaxQuestions (requested : ℤ) (numCards : ℕ) : ℤ :=
  min requested (min (numCards : ℤ) 50)

/-- The question-count bound computed by `create_new_game` in
`routes/cards.py` line 86: `num_questions = min(num_questions,
len(cards_in_set))` — no absolute cap. -/
def cardsCreateNumQuestions (requested : ℤ) (numCards : ℕ) : ℤ :=
  min requested (numCards : ℤ)

/-- Modelled from the spec: the claimed clamp of the requested question
count to the interval `[1, min(setSize, hardCap)]`, for comparison with the
computations actually performed by the code. -/
def clampSpecQuestions (requested : ℤ) (numCards : ℕ) (hardCap : ℤ) : ℤ :=
  max 1 (min requested (min (numCards : ℤ) hardCap))

/-! The `routes/cards.py` engine.  A `LiveGame` has a fixed list of sampled
card ids, an integer index into it (starting at -1, and written from
client-supplied data by the solo next-card endpoint), a state string, and a
solo running score.  Cards are fetched from storage by id; storage is
modelled as a partial map. -/

/-- Game state of `routes/cards.py` `LiveGame.state`. -/
inductive CState
  | WAITING
  | IN_PROGRESS
  | FINISHED
deriving DecidableEq, Repr

/-- The mutable fields of `routes/cards.py` `LiveGame` that the game
operations read or write. -/
structure LiveG where
  state : CState
  current_card_index : ℤ
  card_ids : List ℕ
  is_solo : Bool
  score : ℚ
deriving DecidableEq, Repr

/-- External card storage: `select(Card).where(Card.id == card_id)`. -/
def Storage : Type := ℕ → Option CardM

/-- The recursion of `get_current_card` (`routes/cards.py` lines 105-118)
on a natural index: look up the card id at the index; on a missing card
advance to the next index while one exists, otherwise stop at the last
index with no card.  Returns the final index and the card found, mirroring
the index mutation performed by the Python code.  The recursion is
structural on a fuel argument so that the function reduces inside the
kernel; every step increases the index, so `ids.length` fuel (supplied by
`getCurrentCardNat`) always suffices. -/
def getCCAux (stor : Storage) (ids : List ℕ) : ℕ → ℕ → ℕ × Option CardM
  | 0, i => (i, none)
  | fuel + 1, i =>
    if h : i < ids.length then
      match stor (ids.get ⟨i, h⟩) with
      | some card => (i, some card)
      | none =>
        if i + 1 < ids.length then getCCAux stor ids fuel (i + 1)
        else (i, none)
    else (i, none)

/-- The in-range part of `get_current_card`, with enough fuel for the whole
id list. -/
def getCurrentCardNat (stor : Storage) (ids : List ℕ) (i : ℕ) : ℕ × Option CardM :=
  getCCAux stor ids ids.length i

/-- The function `get_current_card` of `routes/cards.py` (lines 105-118):
guard `0 <= index < len(card_ids)`, then skip forward over deleted cards.
Returns the game with its (possibly advanced) index, and the card. -/
def getCurrentCard (stor : Storage) (g : LiveG) : LiveG × Option CardM :=
  if 0 ≤ g.current_card_index ∧ g.current_card_index < (g.card_ids.length : ℤ) then
    let r := getCurrentCardNat stor g.card_ids g.current_card_index.toNat
    ({ g with current_card_index := (r.1 : ℤ) }, r.2)
  else (g, none)

/-- Inbound websocket messages of the `routes/cards.py` endpoint
(lines 574-668).  `viewed_answer` is the `payload.get('viewed_answer',
False)` flag. -/
inductive InMsgC
  | chat (message : Option String)
  | answerSubmission (answer : String) (viewed_answer : Bool)
  | gameControl (command : Option String)
  | scoreRequest
  | unknownType
deriving DecidableEq, Repr

/-- Outbound payloads emitted by the `routes/cards.py` websocket loop. -/
inductive PayloadC
  | chatMsg (sender text : String)
  | answerResult (sender answer result : String) (scores : Board)
  | newCard (front back : String) (question_number total_questions : ℤ)
  | gameEnd
  | errorMsg (text : String)
  | scoreUpdate (scores : Board)
deriving DecidableEq, Repr

/-- Result of one iteration of the `routes/cards.py` websocket loop: new
game, new scoreboard for this game, outbound messages. -/
structure StepResultC where
  game : LiveG
  board : Board
  out : List (Dest × PayloadC)
deriving DecidableEq, Repr

/-- One iteration of the `routes/cards.py` websocket receive loop
(lines 575-668) for a message from `sender`; `isCreator` is the
`current_user.id == game.creator_id` check made at connection time. -/
def cardsWsStep (stor : Storage) (g : LiveG) (b : Board) (sender : String)
    (isCreator : Bool) (msg : InMsgC) : StepResultC :=
  match msg with
  | .chat m =>
    if truthyStr m then ⟨g, b, [(.toAll, .chatMsg sender (m.getD ""))]⟩
    else ⟨g, b, []⟩
  | .answerSubmission a viewed =>
    if g.state ≠ .IN_PROGRESS then ⟨g, b, []⟩
    else
      let answer := pyStrip a
      let r := getCurrentCard stor g
      match r.2 with
      | none => ⟨r.1, b, []⟩
      | some card =>
        if answer = "" ∧ viewed = false then ⟨r.1, b, []⟩
        else
          let result := if viewed then "wrong" else grade_answer answer card.back
          let display := if viewed then "[ANSWER REVEALED] - Score: 0" else answer
          let b1 := boardApply b sender result
          ⟨r.1, b1, [(.toAll, .answerResult sender display result b1)]⟩
  | .gameControl cmd =>
    if g.state ≠ .IN_PROGRESS then ⟨g, b, []⟩
    else if !isCreator then
      ⟨g, b, [(.toSender, .errorMsg "Only the creator can control the game.")]⟩
    else if cmd = some "request_next_card" then
      let g1 := { g with current_card_index := g.current_card_index + 1 }
      if (g1.card_ids.length : ℤ) ≤ g1.current_card_index then
        ⟨{ g1 with state := .FINISHED }, b, [(.toAll, .gameEnd)]⟩
      else
        let r := getCurrentCard stor g1
        match r.2 with
        | some card =>
          ⟨r.1, b, [(.toAll, .newCard card.front card.back
            (r.1.current_card_index + 1) (r.1.card_ids.length : ℤ))]⟩
        | none => ⟨{ r.1 with state := .FINISHED }, b, [(.toAll, .gameEnd)]⟩
    else ⟨g, b, []⟩
  | .scoreRequest => ⟨g, b, [(.toSender, .scoreUpdate b)]⟩
  | .unknownType => ⟨g, b, []⟩

/-- Responses of the solo answer endpoint `/cards/playtriv/answer`
(`routes/cards.py` lines 268-312). -/
inductive SoloAnswerResp
  | badRequest
  | finished
  | success (result correct_answer : String)
deriving DecidableEq, Repr

/-- The solo answer endpoint `solo_game_submit_answer` (`routes/cards.py`
lines 268-312), applied to its game: reject a blank answer or a game not in
progress; finish the game when no current card exists; otherwise grade and
accumulate the running solo score (`5.0` / `2.5` / nothing). -/
def soloSubmitAnswer (stor : Storage) (g : LiveG) (answerRaw : String) :
    LiveG × SoloAnswerResp :=
  let user_answer := pyStrip answerRaw
  if user_answer = "" then (g, .badRequest)
  else if g.state ≠ .IN_PROGRESS then (g, .badRequest)
  else
    let r := getCurrentCard stor g
    match r.2 with
    | none => ({ r.1 with state := .FINISHED }, .finished)
    | some card =>
      let result := grade_answer user_answer card.back
      let pts : ℚ := if result = "correct" then 5 else if result = "half" then 5 / 2 else 0
      ({ r.1 with score := r.1.score + pts }, .success result card.back)

/-- Responses of the solo next-card endpoint `/cards/playtriv/next`
(`routes/cards.py` lines 315-360). -/
inductive SoloNextResp
  | finishedAlready
  | finished
  | nextCard (front back : String) (card_index : ℤ)
deriving DecidableEq, Repr

/-- The solo next-card endpoint `solo_game_next_card` (`routes/cards.py`
lines 315-360): the new index is `current_index + 1` where `current_index`
is taken from the client-supplied request body, not from the stored game. -/
def soloNextCard (stor : Storage) (g : LiveG) (current_index : ℤ) :
    LiveG × SoloNextResp :=
  if g.state = .FINISHED then (g, .finishedAlready)
  else
    let next_index := current_index + 1
    let g1 := { g with current_card_index := next_index }
    if (g1.card_ids.length : ℤ) ≤ next_index then
      ({ g1 with state := .FINISHED }, .finished)
    else
      let r := getCurrentCard stor g1
      match r.2 with
      | some card =>
        if (r.1.card_ids.length : ℤ) ≤ r.1.current_card_index then
          ({ r.1 with state := .FINISHED }, .finished)
        else (r.1, .nextCard card.front card.back r.1.current_card_index)
      | none => ({ r.1 with state := .FINISHED }, .finished)

/-- Result of rendering the solo in-progress page. -/
inductive RenderResp
  | redirectFinished
  | render (card : Option CardM) (card_index : ℤ) (total_questions : ℕ)
deriving DecidableEq, Repr

/-- The solo in-progress page `solo_game_in_progress` (`routes/cards.py`
lines 229-266): redirect when already finished; finish when no card exists
and the index has run past the list; otherwise render the current card —
which the code allows to be `None`. -/
def soloInProgress (stor : Storage) (g : LiveG) : LiveG × RenderResp :=
  if g.state = .FINISHED then (g, .redirectFinished)
  else
    let r := getCurrentCard stor g
    if r.2 = none ∧ (r.1.card_ids.length : ℤ) ≤ r.1.current_card_index then
      ({ r.1 with state := .FINISHED }, .redirectFinished)
    else (r.1, .render r.2 r.1.current_card_index r.1.card_ids.length)

/-- Result of the multiplayer start route. -/
inductive StartResp
  | emptyError
  | started (front back : String)
deriving DecidableEq, Repr

/-- The multiplayer start route `start_game` (`routes/cards.py`
lines 486-528), after the creator authorization check: it performs no check
of the current state, sets the game IN_PROGRESS at index 0, and broadcasts
the first card (finishing with an error when no card survives). -/
def cardsStartGame (stor : Storage) (g : LiveG) : LiveG × StartResp :=
  let g1 := { g with state := .IN_PROGRESS, current_card_index := 0 }
  let r := getCurrentCard stor g1
  match r.2 with
  | none => ({ r.1 with state := .FINISHED }, .emptyError)
  | some card => (r.1, .started card.front card.back)

/-! Broadcast fan-out.  A registered connection is (identifier, send
succeeds?); the delivered list records which connections actually received
the message, in order. -/

/-- `broadcast_game_message` of `routes/games.py` (lines 114-123): each send
is wrapped in try/except, so a failing connection is skipped and delivery
continues. -/
def gamesBroadcast : List (ℕ × Bool) → List ℕ
  | [] => []
  | (i, ok) :: rest => if ok then i :: gamesBroadcast rest else gamesBroadcast rest

/-- `ConnectionManager.broadcast` of `routes/cards.py` (lines 57-62): sends
are not guarded, so the first failing send raises out of the loop and no
later connection is delivered; for a solo game no send is attempted at all. -/
def cardsBroadcast (isSolo : Bool) : List (ℕ × Bool) → List ℕ
  | [] => []
  | (i, ok) :: rest =>
    if isSolo then cardsBroadcast isSolo rest
    else if ok then i :: cardsBroadcast isSolo rest
    else []

section CardFetchLemmas

lemma getCCAux_le (stor : Storage) (ids : List ℕ) (fuel : ℕ) :
    ∀ i, i ≤ (getCCAux stor ids fuel i).1 := by
  induction fuel with
  | zero => intro i; exact le_refl i
  | succ fuel ih =>
    intro i
    unfold getCCAux
    split
    case isTrue h =>
      cases hs : stor (ids.get ⟨i, h⟩) with
      | some card => simp
      | none =>
        simp only [hs]
        split
        case isTrue h2 => exact le_trans (Nat.le_succ i) (ih (i + 1))
        case isFalse h2 => simp
    case isFalse h => simp

lemma getCCAux_lt (stor : Storage) (ids : List ℕ) (fuel : ℕ) :
    ∀ i, i < ids.length → (getCCAux stor ids fuel i).1 < ids.length := by
  induction fuel with
  | zero => intro i hi; exact hi
  | succ fuel ih =>
    intro i hi
    unfold getCCAux
    split
    case isTrue h =>
      cases hs : stor (ids.get ⟨i, h⟩) with
      | some card => simpa using h
      | none =>
        simp only [hs]
        split
        case isTrue h2 => exact ih (i + 1) h2
        case isFalse h2 => simpa using h
    case isFalse h => exact absurd hi h

lemma getCCAux_sound (stor : Storage) (ids : List ℕ) (fuel : ℕ) :
    ∀ i, ∀ card : CardM, (getCCAux stor ids fuel i).2 = some card →
      ∃ id, ids.get? (getCCAux stor ids fuel i).1 = some id ∧ stor id = some card := by
  induction fuel with
  | zero => intro i card hc; simp [getCCAux] at hc
  | succ fuel ih =>
    intro i
    unfold getCCAux
    split
    case isTrue h =>
      cases hs : stor (ids.get ⟨i, h⟩) with
      | some c =>
        simp only [hs]
        intro card hc
        exact ⟨ids.get ⟨i, h⟩, by simp [List.get?_eq_get h], hs.trans hc⟩
      | none =>
        simp only [hs]
        split
        case isTrue h2 => exact ih (i + 1)
        case isFalse h2 => intro card hc; simp at hc
    case isFalse h => intro card hc; simp at hc

lemma getCCAux_none (stor : Storage) (ids : List ℕ) (fuel : ℕ) :
    ∀ i, ids.length ≤ fuel + i → (getCCAux stor ids fuel i).2 = none →
      ∀ k, i ≤ k → ∀ hk : k < ids.length, stor (ids.get ⟨k, hk⟩) = none := by
  induction fuel with
  | zero => intro i hfuel _ k hik hk; omega
  | succ fuel ih =>
    intro i hfuel
    unfold getCCAux
    split
    case isTrue h =>
      cases hs : stor (ids.get ⟨i, h⟩) with
      | some c => simp [hs]
      | none =>
        simp only [hs]
        split
        case isTrue h2 =>
          intro hc k hik hk
          rcases Nat.eq_or_lt_of_le hik with rfl | hlt
          · exact hs
          · exact ih (i + 1) (by omega) hc k hlt hk
        case isFalse h2 =>
          intro _ k hik hk
          have hki : k = i := by omega
          subst hki
          exact hs
    case isFalse h =>
      intro _ k hik hk
      omega

lemma getCurrentCardNat_le (stor : Storage) (ids : List ℕ) (i : ℕ) :
    i ≤ (getCurrentCardNat stor ids i).1 :=
  getCCAux_le stor ids ids.length i

lemma getCurrentCardNat_lt (stor : Storage) (ids : List ℕ) (i : ℕ) (hi : i < ids.length) :
    (getCurrentCardNat stor ids i).1 < ids.length :=
  getCCAux_lt stor ids ids.length i hi

lemma getCurrentCardNat_sound (stor : Storage) (ids : List ℕ) (i : ℕ) :
    ∀ card : CardM, (getCurrentCardNat stor ids i).2 = some card →
      ∃ id, ids.get? (getCurrentCardNat stor ids i).1 = some id ∧ stor id = some card :=
  getCCAux_sound stor ids ids.length i

lemma getCurrentCardNat_none (stor : Storage) (ids : List ℕ) (i : ℕ) :
    (getCurrentCardNat stor ids i).2 = none →
      ∀ k, i ≤ k → ∀ hk : k < ids.length, stor (ids.get ⟨k, hk⟩) = none :=
  getCCAux_none stor ids ids.length i (by omega)

lemma getCurrentCard_le (stor : Storage) (g : LiveG) :
    g.current_card_index ≤ (getCurrentCard stor g).1.current_card_index := by
  unfold getCurrentCard
  split
  case isTrue h =>
    have h1 := getCurrentCardNat_le stor g.card_ids g.current_card_index.toNat
    simp only
    omega
  case isFalse h => exact le_refl _

lemma getCurrentCard_state (stor : Storage) (g : LiveG) :
    (getCurrentCard stor g).1.state = g.state ∧
    (getCurrentCard stor g).1.card_ids = g.card_ids ∧
    (getCurrentCard stor g).1.is_solo = g.is_solo ∧
    (getCurrentCard stor g).1.score = g.score := by
  unfold getCurrentCard
  split
  · exact ⟨rfl, rfl, rfl, rfl⟩
  · exact ⟨rfl, rfl, rfl, rfl⟩

end CardFetchLemmas

/-- Storage holding cards with ids 1..10. -/
def demoStorage : Storage := fun id => if 1 ≤ id ∧ id ≤ 10 then some ⟨"f", "b"⟩ else none

/-- Storage from which every card has been deleted. -/
def emptyStorage : Storage := fun _ => none

/-- C3 counterexample: with a requested question count of 0 against a set of
3 cards, `create_game` computes `min(0, 3, 50) = 0`, not the claimed clamp
to `[1, min(3, 50)]`, which would be 1 (and `create_new_game` likewise
computes 0). -/
theorem create_clamp_counterexample :
    gamesCreateMaxQuestions 0 3 = 0 ∧
    cardsCreateNumQuestions 0 3 = 0 ∧
    clampSpecQuestions 0 3 50 = 1 ∧
    gamesCreateMaxQuestions 0 3 ≠ clampSpecQuestions 0 3 50 := by decide

/-- C3 amended: the created session's question count is
`min(requested, setSize, 50)` in the games engine and `min(requested,
setSize)` (no absolute cap) in the cards engine — only the upper clamp is
applied; when the requested count is at least 1 (and the set non-empty)
this coincides with the claimed clamp to `[1, min(setSize, hardCap)]`, and
requesting 100 questions against 3 cards yields 3 in both engines. -/
theorem create_clamp_amended (q : ℤ) (n : ℕ) (hq : 1 ≤ q) (hn : 1 ≤ n) :
    gamesCreateMaxQuestions q n = clampSpecQuestions q n 50 ∧
    cardsCreateNumQuestions q n = clampSpecQuestions q n (n : ℤ) ∧
    gamesCreateMaxQuestions 100 3 = 3 ∧
    cardsCreateNumQuestions 100 3 = 3 := by
  refine ⟨?_, ?_, by decide, by decide⟩
  · unfold gamesCreateMaxQuestions clampSpecQuestions
    omega
  · unfold cardsCreateNumQuestions clampSpecQuestions
    omega

/-- Witness for C3 (amended) at a concrete requested count and set size. -/
theorem create_clamp_amended_witness :
    gamesCreateMaxQuestions 7 3 = clampSpecQuestions 7 3 50 ∧
    cardsCreateNumQuestions 7 3 = clampSpecQuestions 7 3 (3 : ℤ) ∧
    gamesCreateMaxQuestions 100 3 = 3 ∧
    cardsCreateNumQuestions 100 3 = 3 :=
  create_clamp_amended 7 3 (by decide) (by decide)

/-- A solo game mid-play, at question index 5 of 10. -/
def soloDemoGame : LiveG :=
  { state := .IN_PROGRESS, current_card_index := 5,
    card_ids := [1, 2, 3, 4, 5, 6, 7, 8, 9, 10], is_solo := true, score := 0 }

/-- C5 counterexample: the solo next-card endpoint trusts the
client-supplied `current_index`; a client that re-sends `current_index = 0`
against a game whose stored index is 5 moves the index back to 1. -/
theorem question_index_monotone_counterexample :
    soloDemoGame.current_card_index = 5 ∧
    (soloNextCard demoStorage soloDemoGame 0).1.current_card_index = 1 ∧
    (soloNextCard demoStorage soloDemoGame 0).1.current_card_index <
      soloDemoGame.current_card_index := by decide

/-- C5 amended: the question position is monotonically non-decreasing under
every websocket operation of both engines, for every inbound message and
storage contents, and under the solo answer endpoint; the solo next-card
endpoint, however, overwrites the index with the client-supplied
`current_index + 1`, which can move it backwards (and the multiplayer start
route resets it to 0). -/
theorem question_index_monotone_amended (fetch : Option CardM) (g : GameG)
    (s : String) (m : InMsgG) (stor : Storage) (cg : LiveG) (b : Board)
    (cs : String) (isC : Bool) (cm : InMsgC) (ans : String) :
    g.current_question_count ≤ (gamesStep fetch g s m).state.current_question_count ∧
    cg.current_card_index ≤ (cardsWsStep stor cg b cs isC cm).game.current_card_index ∧
    cg.current_card_index ≤ (soloSubmitAnswer stor cg ans).1.current_card_index := by
  refine ⟨?_, ?_, ?_⟩
  · cases m with
    | chat msg => by_cases h : truthyStr msg <;> simp [gamesStep, h]
    | answerSubmission a =>
      unfold gamesStep
      dsimp only
      split
      · exact le_refl _
      · cases g.current_card <;> simp
    | gameControl cmd =>
      unfold gamesStep
      dsimp only
      split_ifs <;> (try cases fetch) <;> (try dsimp only) <;> omega
    | scoreRequest => simp [gamesStep]
    | unknownType => simp [gamesStep]
  · cases cm with
    | chat msg => by_cases h : truthyStr msg <;> simp [cardsWsStep, h]
    | answerSubmission a viewed =>
      unfold cardsWsStep
      dsimp only
      split
      · exact le_refl _
      · have hle := getCurrentCard_le stor cg
        cases hc : (getCurrentCard stor cg).2 with
        | none => simp only [hc]; exact hle
        | some card => simp only [hc]; split_ifs <;> exact hle
    | gameControl cmd =>
      unfold cardsWsStep
      dsimp only
      split_ifs with h1 h2 h3 h4
      · exact le_refl _
      · exact le_refl _
      · dsimp only; omega
      · have hle := getCurrentCard_le stor
          { cg with current_card_index := cg.current_card_index + 1 }
        cases hc : (getCurrentCard stor
            { cg with current_card_index := cg.current_card_index + 1 }).2 with
        | some card =>
          simp only [hc]
          dsimp only at hle ⊢
          omega
        | none =>
          simp only [hc]
          dsimp only at hle ⊢
          omega
      · exact le_refl _
    | scoreRequest => simp [cardsWsStep]
    | unknownType => simp [cardsWsStep]
  · unfold soloSubmitAnswer
    dsimp only
    split
    · exact le_refl _
    · split
      · exact le_refl _
      · have hle := getCurrentCard_le stor cg
        cases hc : (getCurrentCard stor cg).2 with
        | none => simp only [hc]; exact hle
        | some card => simp only [hc]; exact hle

/-- True exactly on `new_card` payloads of the games engine. -/
def isNewCardG : PayloadG → Bool
  | .newCard _ _ _ _ => true
  | _ => false

/-- True exactly on `game_status_update` payloads of the games engine. -/
def isStatusUpdateG : PayloadG → Bool
  | .gameStatusUpdate _ => true
  | _ => false

/-- True exactly on `new_card` payloads of the cards engine. -/
def isNewCardC : PayloadC → Bool
  | .newCard _ _ _ _ => true
  | _ => false

/-- True exactly on `game_end` payloads of the cards engine. -/
def isGameEndC : PayloadC → Bool
  | .gameEnd => true
  | _ => false

section FinishedLemmas

lemma gamesStep_finished (fetch : Option CardM) (g : GameG) (s : String) (m : InMsgG)
    (hg : g.status = .FINISHED) :
    (gamesStep fetch g s m).state = g ∧ (gamesStep fetch g s m).crash = false ∧
    ∀ o ∈ (gamesStep fetch g s m).out,
      isNewCardG o.2 = false ∧ isStatusUpdateG o.2 = false := by
  cases m with
  | chat msg =>
    by_cases h : truthyStr msg <;> simp [gamesStep, h, isNewCardG, isStatusUpdateG]
  | answerSubmission a => simp [gamesStep, hg]
  | gameControl cmd => simp [gamesStep, hg]
  | scoreRequest => simp [gamesStep, isNewCardG, isStatusUpdateG]
  | unknownType => simp [gamesStep]

lemma cardsWsStep_finished (stor : Storage) (cg : LiveG) (b : Board) (cs : String)
    (isC : Bool) (cm : InMsgC) (hc : cg.state = .FINISHED) :
    (cardsWsStep stor cg b cs isC cm).game = cg ∧
    (cardsWsStep stor cg b cs isC cm).board = b ∧
    ∀ o ∈ (cardsWsStep stor cg b cs isC cm).out,
      isNewCardC o.2 = false ∧ isGameEndC o.2 = false := by
  cases cm with
  | chat msg =>
    by_cases h : truthyStr msg <;> simp [cardsWsStep, h, isNewCardC, isGameEndC]
  | answerSubmission a viewed => simp [cardsWsStep, hc]
  | gameControl cmd => simp [cardsWsStep, hc]
  | scoreRequest => simp [cardsWsStep, isNewCardC, isGameEndC]
  | unknownType => simp [cardsWsStep]

end FinishedLemmas

/-- A finished multiplayer cards-engine game over three still-existing
cards. -/
def finishedDemoCards : LiveG :=
  { state := .FINISHED, current_card_index := 3, card_ids := [1, 2, 3],
    is_solo := false, score := 0 }

/-- A finished games-engine game. -/
def finishedDemoGames : GameG :=
  { status := .FINISHED, max_questions := 3, current_question_count := 3,
    current_card := some ⟨"f", "b"⟩, score_board := [("alice", initScore)],
    answered_users := [], creator_username := "alice" }

/-- C4 counterexample: the cards-engine start route performs no state check,
so invoking it on a FINISHED session flips the session back to IN_PROGRESS
at index 0 and re-emits a card to the players. -/
theorem finished_absorbing_counterexample :
    finishedDemoCards.state = .FINISHED ∧
    (cardsStartGame demoStorage finishedDemoCards).1.state = .IN_PROGRESS ∧
    (cardsStartGame demoStorage finishedDemoCards).2 = .started "f" "b" := by decide

/-- C4 amended: once a session is FINISHED, every websocket operation of
both engines and every solo endpoint leaves the session and the scoreboard
unchanged and emits neither a card nor a further status/finish event (so the
FINISHED transition caused by advancing past the last question happens
exactly once through those operations); the cards-engine creator-only HTTP
start route, however, performs no state check and can restart a FINISHED
session, re-emitting cards. -/
theorem finished_absorbing_amended (fetch : Option CardM) (g : GameG) (s : String)
    (m : InMsgG) (stor : Storage) (cg : LiveG) (b : Board) (cs : String) (isC : Bool)
    (cm : InMsgC) (ans : String) (ci : ℤ)
    (hg : g.status = .FINISHED) (hc : cg.state = .FINISHED) :
    (gamesStep fetch g s m).state = g ∧
    (gamesStep fetch g s m).crash = false ∧
    (∀ o ∈ (gamesStep fetch g s m).out,
      isNewCardG o.2 = false ∧ isStatusUpdateG o.2 = false) ∧
    (cardsWsStep stor cg b cs isC cm).game = cg ∧
    (cardsWsStep stor cg b cs isC cm).board = b ∧
    (∀ o ∈ (cardsWsStep stor cg b cs isC cm).out,
      isNewCardC o.2 = false ∧ isGameEndC o.2 = false) ∧
    soloSubmitAnswer stor cg ans = (cg, .badRequest) ∧
    soloNextCard stor cg ci = (cg, .finishedAlready) ∧
    soloInProgress stor cg = (cg, .redirectFinished) := by
  obtain ⟨h1, h2, h3⟩ := gamesStep_finished fetch g s m hg
  obtain ⟨h4, h5, h6⟩ := cardsWsStep_finished stor cg b cs isC cm hc
  refine ⟨h1, h2, h3, h4, h5, h6, ?_, ?_, ?_⟩
  · unfold soloSubmitAnswer
    dsimp only
    rw [hc]
    split_ifs with ha hb
    · rfl
    · rfl
    · exact absurd (by decide) hb
  · unfold soloNextCard
    rw [if_pos hc]
  · unfold soloInProgress
    rw [if_pos hc]

/-- Witness for C4 (amended) at concrete finished sessions and messages. -/
theorem finished_absorbing_amended_witness :
    (gamesStep none finishedDemoGames "alice"
      (.gameControl (some "request_next_card"))).state = finishedDemoGames ∧
    soloNextCard emptyStorage finishedDemoCards 0 =
      (finishedDemoCards, .finishedAlready) :=
  ⟨(finished_absorbing_amended none finishedDemoGames "alice"
      (.gameControl (some "request_next_card")) emptyStorage finishedDemoCards []
      "bob" false (.answerSubmission "x" false) "x" 0 rfl rfl).1,
    (finished_absorbing_amended none finishedDemoGames "alice"
      (.gameControl (some "request_next_card")) emptyStorage finishedDemoCards []
      "bob" false (.answerSubmission "x" false) "x" 0 rfl rfl).2.2.2.2.2.2.2.1⟩

/-- A cards-engine multiplayer game in progress on a single existing card. -/
def roundDemoGame : LiveG :=
  { state := .IN_PROGRESS, current_card_index := 0, card_ids := [1],
    is_solo := false, score := 0 }

/-- C6 counterexample: the cards-engine websocket tracks no per-round set of
players who already answered, so the same player's second submission for the
same question is scored again: after two submissions of the correct answer
their entry shows 2 correct answers and grade 10. -/
theorem duplicate_answer_counterexample :
    ((cardsWsStep demoStorage roundDemoGame [] "alice" false
      (.answerSubmission "b" false)).board.map fun p => (p.1, p.2.correct)) =
        [("alice", 1)] ∧
    ((cardsWsStep demoStorage
      (cardsWsStep demoStorage roundDemoGame [] "alice" false
        (.answerSubmission "b" false)).game
      (cardsWsStep demoStorage roundDemoGame [] "alice" false
        (.answerSubmission "b" false)).board
      "alice" false (.answerSubmission "b" false)).board.map
        fun p => (p.1, p.2.correct)) = [("alice", 2)] := by decide

/-- C6 amended: in the games engine a repeated answer submission by a player
already recorded in `answered_users` is a complete no-op (state untouched,
nothing sent, no crash); the cards-engine websocket has no such per-round
deduplication and scores every repeated submission (see the
counterexample). -/
theorem duplicate_answer_amended (fetch : Option CardM) (g : GameG) (sender a : String)
    (h : sender ∈ g.answered_users) :
    gamesStep fetch g sender (.answerSubmission a) = ⟨g, [], false⟩ := by
  unfold gamesStep
  dsimp only
  rw [if_pos (Or.inr h)]

/-- An active games-engine game in which bob has already answered. -/
def answeredDemoGames : GameG :=
  { status := .ACTIVE, max_questions := 3, current_question_count := 1,
    current_card := some ⟨"f", "b"⟩, score_board := [("alice", initScore)],
    answered_users := ["bob"], creator_username := "alice" }

/-- Witness for C6 (amended): bob's second submission changes nothing. -/
theorem duplicate_answer_amended_witness :
    gamesStep none answeredDemoGames "bob" (.answerSubmission "b") =
      ⟨answeredDemoGames, [], false⟩ :=
  duplicate_answer_amended none answeredDemoGames "bob" "b" (by decide)

/-- An active games-engine game with players alice (creator) and bob. -/
def activeDemoGames : GameG :=
  { status := .ACTIVE, max_questions := 3, current_question_count := 1,
    current_card := some ⟨"f", "b"⟩,
    score_board := [("alice", initScore), ("bob", initScore)],
    answered_users := [], creator_username := "alice" }

/-- C7 counterexample: in the games engine a `game_control` command from
non-creator bob is dropped with no outbound message at all — the session is
unchanged, but no direct error reply reaches the sender. -/
theorem control_error_reply_counterexample :
    "bob" ≠ activeDemoGames.creator_username ∧
    gamesStep (some ⟨"f2", "b2"⟩) activeDemoGames "bob"
      (.gameControl (some "request_next_card")) = ⟨activeDemoGames, [], false⟩ := by
  decide

/-- C7 amended: a non-creator `game_control` command never changes the
session state in either engine; the cards engine (while IN_PROGRESS) sends a
direct error reply to the sender only, not broadcast; the games engine
silently ignores the command without any reply. -/
theorem control_error_reply_amended (fetch : Option CardM) (g : GameG) (s : String)
    (cmd : Option String) (stor : Storage) (cg : LiveG) (b : Board) (cs : String)
    (cmd2 : Option String) (h1 : s ≠ g.creator_username)
    (h2 : cg.state = .IN_PROGRESS) :
    gamesStep fetch g s (.gameControl cmd) = ⟨g, [], false⟩ ∧
    cardsWsStep stor cg b cs false (.gameControl cmd2) =
      ⟨cg, b, [(.toSender, .errorMsg "Only the creator can control the game.")]⟩ := by
  constructor
  · unfold gamesStep
    dsimp only
    rw [if_pos h1]
  · simp [cardsWsStep, h2]

/-- Witness for C7 (amended) at concrete non-creator senders. -/
theorem control_error_reply_amended_witness :
    gamesStep none activeDemoGames "bob" (.gameControl (some "start_game")) =
      ⟨activeDemoGames, [], false⟩ ∧
    cardsWsStep demoStorage roundDemoGame [] "bob" false
      (.gameControl (some "request_next_card")) =
      ⟨roundDemoGame, [],
        [(.toSender, .errorMsg "Only the creator can control the game.")]⟩ :=
  control_error_reply_amended none activeDemoGames "bob" (some "start_game")
    demoStorage roundDemoGame [] "bob" (some "request_next_card") (by decide) rfl

section BroadcastLemmas

lemma gamesBroadcast_mem (conns : List (ℕ × Bool)) (i : ℕ) (h : (i, true) ∈ conns) :
    i ∈ gamesBroadcast conns := by
  induction conns with
  | nil => cases h
  | cons p rest ih =>
    obtain ⟨pi, pok⟩ := p
    rcases List.mem_cons.mp h with heq | hmem
    · obtain ⟨h1, h2⟩ := Prod.mk.injEq .. ▸ heq
      subst h1
      rw [← h2]
      simp [gamesBroadcast]
    · cases pok
      · simpa [gamesBroadcast] using ih hmem
      · show i ∈ if true = true then pi :: gamesBroadcast rest else gamesBroadcast rest
        rw [if_pos rfl]
        exact List.mem_cons_of_mem _ (ih hmem)

lemma cardsBroadcast_prefix (conns : List (ℕ × Bool)) :
    cardsBroadcast false conns = (conns.takeWhile fun p => p.2).map Prod.fst := by
  induction conns with
  | nil => rfl
  | cons p rest ih =>
    obtain ⟨pi, pok⟩ := p
    cases pok <;> simp [cardsBroadcast, List.takeWhile_cons, ih]

end BroadcastLemmas

/-- C8 counterexample: with three registered connections of which the second
fails on send, the cards-engine broadcast delivers only to the first — the
third, although perfectly healthy, never receives the message, because the
unguarded send exception aborts the fan-out loop. -/
theorem broadcast_isolation_counterexample :
    (3, true) ∈ [(1, true), (2, false), (3, true)] ∧
    gamesBroadcast [(1, true), (2, false), (3, true)] = [1, 3] ∧
    cardsBroadcast false [(1, true), (2, false), (3, true)] = [1] ∧
    3 ∉ cardsBroadcast false [(1, true), (2, false), (3, true)] := by decide

/-- C8 amended: the games-engine broadcast wraps each send in try/except, so
every registered connection whose own send does not fail receives the
message; the cards-engine broadcast is unguarded, so it delivers exactly to
the longest prefix of connections preceding the first send failure. -/
theorem broadcast_isolation_amended (conns : List (ℕ × Bool)) (i : ℕ)
    (h : (i, true) ∈ conns) :
    i ∈ gamesBroadcast conns ∧
    cardsBroadcast false conns = (conns.takeWhile fun p => p.2).map Prod.fst :=
  ⟨gamesBroadcast_mem conns i h, cardsBroadcast_prefix conns⟩

/-- Witness for C8 (amended) on a concrete connection list. -/
theorem broadcast_isolation_amended_witness :
    2 ∈ gamesBroadcast [(1, false), (2, true)] ∧
    cardsBroadcast false [(1, false), (2, true)] =
      (([(1, false), (2, true)] : List (ℕ × Bool)).takeWhile fun p => p.2).map
        Prod.fst :=
  broadcast_isolation_amended [(1, false), (2, true)] 2 (by decide)

/-- A solo game over three card ids, all of whose cards will have been
deleted from storage. -/
def soloDeletedGame : LiveG :=
  { state := .IN_PROGRESS, current_card_index := 0, card_ids := [1, 2, 3],
    is_solo := true, score := 0 }

/-- C9 counterexample: when every remaining card has been deleted but the
index is still inside the id list, `get_current_card` stops at the last
index returning no card, and the solo in-progress page then renders a null
card while the session stays IN_PROGRESS instead of transitioning to
FINISHED. -/
theorem deleted_card_counterexample :
    (soloInProgress emptyStorage soloDeletedGame).2 = .render none 2 3 ∧
    (soloInProgress emptyStorage soloDeletedGame).1.state = .IN_PROGRESS := by decide

/-- C9 amended: `get_current_card` only moves forward and returns only cards
that still exist in storage, reporting none exactly when no card from the
current index on survives; the solo answer endpoint, the cards-engine
websocket advance, and the start route then transition the session to
FINISHED rather than serving a null question; two paths are exceptions: the
solo in-progress page render (see the counterexample), and the games-engine
answer handler, which dereferences its absent current card and dies on the
connection's blanket exception handler. -/
theorem deleted_card_amended (stor : Storage) (ids : List ℕ) (i : ℕ) (g : LiveG)
    (a : String) (b : Board) (cs : String)
    (h1 : g.state = .IN_PROGRESS) (h2 : pyStrip a ≠ "") :
    (∀ card : CardM, (getCurrentCardNat stor ids i).2 = some card →
      i ≤ (getCurrentCardNat stor ids i).1 ∧
      ∃ id, ids.get? (getCurrentCardNat stor ids i).1 = some id ∧
        stor id = some card) ∧
    ((getCurrentCardNat stor ids i).2 = none →
      ∀ k, i ≤ k → ∀ hk : k < ids.length, stor (ids.get ⟨k, hk⟩) = none) ∧
    ((getCurrentCard stor g).2 = none →
      soloSubmitAnswer stor g a =
        ({ (getCurrentCard stor g).1 with state := .FINISHED }, .finished)) ∧
    ((getCurrentCard stor
        { g with current_card_index := g.current_card_index + 1 }).2 = none →
      g.current_card_index + 1 < (g.card_ids.length : ℤ) →
      (cardsWsStep stor g b cs true
        (.gameControl (some "request_next_card"))).game.state = .FINISHED ∧
      (cardsWsStep stor g b cs true
        (.gameControl (some "request_next_card"))).out = [(.toAll, .gameEnd)]) ∧
    ((getCurrentCard stor
        { g with state := .IN_PROGRESS, current_card_index := 0 }).2 = none →
      (cardsStartGame stor g).1.state = .FINISHED ∧
      (cardsStartGame stor g).2 = .emptyError) ∧
    (∀ g2 : GameG, ∀ fetch : Option CardM, ∀ s2 a2 : String,
      g2.status = .ACTIVE → s2 ∉ g2.answered_users → g2.current_card = none →
      gamesStep fetch g2 s2 (.answerSubmission a2) = ⟨g2, [], true⟩) := by
  refine ⟨?_, getCurrentCardNat_none stor ids i, ?_, ?_, ?_, ?_⟩
  · intro card hc
    exact ⟨getCurrentCardNat_le stor ids i, getCurrentCardNat_sound stor ids i card hc⟩
  · intro hnone
    unfold soloSubmitAnswer
    dsimp only
    rw [if_neg h2, if_neg (by simp [h1]), hnone]
  · intro hnone hrange
    unfold cardsWsStep
    dsimp only
    rw [if_neg (by simp [h1]), if_pos rfl,
      if_neg (show ¬((g.card_ids.length : ℤ) ≤ g.current_card_index + 1) from by
        omega),
      hnone]
    exact ⟨rfl, rfl⟩
  · intro hnone
    unfold cardsStartGame
    dsimp only
    rw [hnone]
    exact ⟨rfl, rfl⟩
  · intro g2 fetch s2 a2 hact hmem hcard
    unfold gamesStep
    dsimp only
    rw [if_neg (by simp [hact, hmem]), hcard]

/-- Witness for C9 (amended): with every card deleted, the solo answer
endpoint finishes the session instead of serving a null question. -/
theorem deleted_card_amended_witness :
    soloSubmitAnswer emptyStorage soloDeletedGame "x" =
      ({ (getCurrentCard emptyStorage soloDeletedGame).1 with state := .FINISHED },
        .finished) :=
  (deleted_card_amended emptyStorage [1, 2, 3] 0 soloDeletedGame "x" [] "p"
    rfl (by decide)).2.2.1 (by decide)

end Trivia
